import Mathlib

/-!
Shallow embedding of the resource actor of `src/worker/context/store.ts`
(the `createResourceStore` closure and the `ResourcesStore` durable object).

Modelling conventions:
* The durable-object key space (`state.storage`), the in-memory dedup
  indices (`resourceIdByURL`, `resourceIdByPackageName`), the page cache
  (`PAGE`) and the content store (`CONTENT`) are association lists with
  string keys; `putKV` overwrites the first binding of a key in place.
* External collaborators (`scrapeHTML`, `getPageDetails`,
  `checkSafeBrowsingAPI`, `getIntegrations`, `getIntegrationsFromPage`)
  are fields of an `Externals` record; `scrapeHTML` may fail, modelling a
  thrown upstream error.
* `new Date().toISOString()` and `generateId()` are passed in as the
  explicit arguments `now` and `fid` of each operation.
* JavaScript truthiness of a nullable string (`if (id)`) is `jsTruthy`.
* Thrown exceptions are `Except.error`; `await`-less calls whose promise
  rejection is unhandled (`updateResource` in `view`/`bookmark`/
  `unbookmark`, `updateResourceCache` in `getDetails`) are modelled by
  `updateResourceDetached`: the storage write inside them happens first
  and always takes effect, the content-store write only when no error.
-/

namespace RemixGuide

/-- JavaScript truthiness of a `string | null` value: `null` and the empty
string are falsy. -/
def jsTruthy : Option String → Bool
  | none => false
  | some s => !(s == "")

/-- Lookup of the first binding of a key in an association list. -/
def lookupKV {α : Type} : List (String × α) → String → Option α
  | [], _ => none
  | (k', v) :: rest, k => if k' = k then some v else lookupKV rest k

/-- Overwrite the first binding of a key in place, or append a new binding. -/
def putKV {α : Type} : List (String × α) → String → α → List (String × α)
  | [], k, v => [(k, v)]
  | (k', v') :: rest, k, v =>
    if k' = k then (k, v) :: rest else (k', v') :: putKV rest k v

/-- A scraped page representation as stored in the `PAGE` KV namespace. -/
structure Page where
  url : String
  category : Option String
  author : Option String
  title : String
  description : Option String
  image : Option String
  video : Option String
  isSafe : Bool
  dependencies : Option (List (String × String))
  configs : Option (List String)
  createdAt : Option String
  updatedAt : Option String
deriving DecidableEq, Repr

/-- The partial page metadata returned by `getPageDetails`; a `some` field
overrides the corresponding field of the scraped page (object spread). -/
structure PagePatch where
  url : Option String := none
  category : Option String := none
  author : Option String := none
  title : Option String := none
  description : Option String := none
  image : Option String := none
  video : Option String := none
  dependencies : Option (List (String × String)) := none
  configs : Option (List String) := none
deriving DecidableEq, Repr

/-- Spread override of one optional field. -/
def ov {α : Type} (patch cur : Option α) : Option α :=
  match patch with
  | some x => some x
  | none => cur

/-- The object spread `\x7b...page, ...pageDetails\x7d` that merges scraped
page data with the `getPageDetails` result. -/
def mergePage (p : Page) (d : PagePatch) : Page :=
  { p with
    url := d.url.getD p.url
    category := ov d.category p.category
    author := ov d.author p.author
    title := d.title.getD p.title
    description := ov d.description p.description
    image := ov d.image p.image
    video := ov d.video p.video
    dependencies := ov d.dependencies p.dependencies
    configs := ov d.configs p.configs }

/-- The persisted core record (`ResourceSummary`). -/
structure ResourceSummary where
  id : String
  url : String
  bookmarked : List String
  viewCounts : Nat
  createdAt : String
  createdBy : String
  updatedAt : String
  updatedBy : String
deriving DecidableEq, Repr

/-- A `ResourceSummary` extended with the scraped and derived fields. -/
structure Resource extends ResourceSummary where
  category : Option String
  author : Option String
  title : String
  description : Option String
  image : Option String
  video : Option String
  isSafe : Bool
  dependencies : Option (List (String × String))
  configs : Option (List String)
  integrations : List String
deriving DecidableEq, Repr

/-- The denormalized projection attached as KV metadata for list queries. -/
structure ResourceMetadata where
  id : String
  url : String
  category : Option String
  author : Option String
  title : String
  description : Option String
  viewCounts : Nat
  bookmarkCounts : Nat
  integrations : List String
  createdAt : String
deriving DecidableEq, Repr

/-- Submission status returned by `submit`. -/
inductive SubmissionStatus where
  | PUBLISHED
  | RESUBMITTED
  | INVALID
deriving DecidableEq, Repr

/-- A value of the durable-object key space: either a resource summary
(under its id) or an index blob (under `index/URL` / `index/PackageName`). -/
inductive StorageVal where
  | summary (s : ResourceSummary)
  | index (m : List (String × String))
deriving DecidableEq, Repr

/-- The whole mutable state the actor touches: its durable key space, the
two in-memory dedup indices, and the `PAGE` and `CONTENT` KV namespaces. -/
structure World where
  storage : List (String × StorageVal)
  urlIndex : List (String × String)
  pkgIndex : List (String × String)
  page : List (String × Page)
  content : List (String × (Resource × ResourceMetadata))
deriving DecidableEq, Repr

/-- The external collaborators invoked by the actor. `scrapeHTML` may fail,
modelling a thrown scraper error; the rest are total. -/
structure Externals where
  scrapeHTML : String → Except String Page
  getPageDetails : String → PagePatch
  hasGoogleApiKey : Bool
  checkSafeBrowsingAPI : String → Bool
  getIntegrations : List String → List String → List (String × String) → List String
  getIntegrationsFromPage : Page → List String → List String

/-- JavaScript `s.slice(0, n)` on a string (`n` leading characters). -/
def sliceTo (s : String) (n : Nat) : String :=
  String.mk (s.toList.take n)

/-- The full `Resource` object built inside `updateResourceCache` from a
summary, its page data and the current package index keys. -/
def resourceOf (ext : Externals) (packages : List String)
    (summary : ResourceSummary) (page : Page) : Resource :=
  { toResourceSummary := summary
    category := page.category
    author := page.author
    title := page.title
    description := page.description
    image := page.image
    video := page.video
    isSafe := page.isSafe
    dependencies := page.dependencies
    configs := page.configs
    integrations :=
      if page.category = some "package" ∨ page.category = some "repository" then
        ext.getIntegrations (page.configs.getD []) packages (page.dependencies.getD [])
      else
        ext.getIntegrationsFromPage page packages }

/-- The `ResourceMetadata` literal built inside `updateResourceCache`;
it depends only on the `Resource` being written. -/
def resourceMetadataOf (resource : Resource) : ResourceMetadata :=
  { id := resource.id
    url := resource.url
    category := resource.category
    author := resource.author
    title := resource.title
    description := resource.description.map (fun s => sliceTo s 80)
    viewCounts := resource.viewCounts
    bookmarkCounts := resource.bookmarked.length
    integrations := resource.integrations
    createdAt := resource.createdAt }

/-- The pair written to a content-store key by `updateResourceCache`: the
full `Resource` plus its metadata sidecar. -/
def cacheEntry (ext : Externals) (packages : List String)
    (summary : ResourceSummary) (page : Page) : Resource × ResourceMetadata :=
  (resourceOf ext packages summary page,
   resourceMetadataOf (resourceOf ext packages summary page))

/-- Source `updateResourceCache(summary, pageData?)`: resolve the page
(`pageData ?? PAGE.get(summary.url)`), throw when absent, and write the
full `Resource` plus its metadata sidecar to the content store. -/
def updateResourceCache (ext : Externals) (summary : ResourceSummary)
    (pageData : Option Page) (w : World) : Except String World :=
  match pageData.orElse (fun _ => lookupKV w.page summary.url) with
  | none => .error "No page data found for the corresponding URL"
  | some page =>
    let resource := resourceOf ext (w.pkgIndex.map Prod.fst) summary page
    .ok { w with
            content := putKV w.content (String.append "resources/" resource.id)
              (resource, resourceMetadataOf resource) }

/-- Source `updateResource(resource, page?)`: persist the summary under its id,
then refresh the content-store entry. -/
def updateResource (ext : Externals) (resource : ResourceSummary)
    (pageData : Option Page) (w : World) : Except String World :=
  let w1 := { w with storage := putKV w.storage resource.id (.summary resource) }
  updateResourceCache ext resource pageData w1

/-- An `updateResource` call whose promise is not awaited: the storage write
always takes effect; the content-store write only when it does not throw
(the rejection is unhandled and does not affect the caller). -/
def updateResourceDetached (ext : Externals) (resource : ResourceSummary)
    (pageData : Option Page) (w : World) : World :=
  let w1 := { w with storage := putKV w.storage resource.id (.summary resource) }
  match updateResourceCache ext resource pageData w1 with
  | .ok w2 => w2
  | .error _ => w1

/-- Source `getResource(resourceId)`: read the stored summary and project exactly
its eight summary fields. -/
def getResource (w : World) (resourceId : String) : Option ResourceSummary :=
  match lookupKV w.storage resourceId with
  | some (.summary resource) =>
    some { id := resource.id
           url := resource.url
           bookmarked := resource.bookmarked
           viewCounts := resource.viewCounts
           createdAt := resource.createdAt
           createdBy := resource.createdBy
           updatedAt := resource.updatedAt
           updatedBy := resource.updatedBy }
  | _ => none

/-- Source `createResource(page, userId)`: refuse unsafe pages with `INVALID`,
otherwise persist a fresh summary (id `fid`, timestamps `now`), register a
package page in the package-name index, and return `PUBLISHED`. -/
def createResource (ext : Externals) (now fid userId : String) (page : Page)
    (w : World) : Except String ((Option String × SubmissionStatus) × World) :=
  if page.isSafe = false then
    .ok ((none, SubmissionStatus.INVALID), w)
  else
    match updateResource ext
        { id := fid
          url := page.url
          bookmarked := []
          viewCounts := 0
          createdAt := now
          createdBy := userId
          updatedAt := now
          updatedBy := userId } (some page) w with
    | .error e => .error e
    | .ok w1 =>
      let w2 :=
        if page.category = some "package" then
          let pkg := putKV w1.pkgIndex page.title fid
          { w1 with
              pkgIndex := pkg
              storage := putKV w1.storage "index/PackageName" (.index pkg) }
        else w1
      .ok ((some fid, SubmissionStatus.PUBLISHED), w2)

/-- The page `submit` works with: the cached `PAGE.get(url)` entry when
present, otherwise the scraped page merged with `getPageDetails(page.url)`,
the safe-browsing verdict (or `true` without an API key) and timestamps. -/
def effectivePage (ext : Externals) (now url : String) (w : World) :
    Except String Page :=
  match lookupKV w.page url with
  | some page => .ok page
  | none =>
    match ext.scrapeHTML url with
    | .error e => .error e
    | .ok base =>
      let merged := mergePage base (ext.getPageDetails base.url)
      .ok { merged with
              isSafe := if ext.hasGoogleApiKey then ext.checkSafeBrowsingAPI base.url else true
              createdAt := some now
              updatedAt := some now }

/-- The tail of `submit` after the page is resolved: dedup lookup in
`resourceIdByURL`, otherwise `createResource` and registration of the new
id under the page's URL (skipped for a falsy id, mirroring `if (id)`). -/
def submitWithPage (ext : Externals) (now fid userId : String) (page : Page)
    (w : World) : Except String ((Option String × SubmissionStatus) × World) :=
  let id0 := lookupKV w.urlIndex page.url
  if jsTruthy id0 then
    .ok ((id0, SubmissionStatus.RESUBMITTED), w)
  else
    match createResource ext now fid userId page w with
    | .error e => .error e
    | .ok (result, w1) =>
      match result.1 with
      | some i =>
        if i = "" then .ok (result, w1)
        else
          let urlIdx := putKV w1.urlIndex page.url i
          .ok (result, { w1 with
                           urlIndex := urlIdx
                           storage := putKV w1.storage "index/URL" (.index urlIdx) })
      | none => .ok (result, w1)

/-- Source `submit(userId, url)`: resolve the page (caching a freshly scraped page
under its canonical URL), then dispatch on the dedup index. -/
def submit (ext : Externals) (now fid userId url : String) (w : World) :
    Except String ((Option String × SubmissionStatus) × World) :=
  match effectivePage ext now url w with
  | .error e => .error e
  | .ok page =>
    let w1 :=
      if (lookupKV w.page url).isSome then w
      else { w with page := putKV w.page page.url page }
    submitWithPage ext now fid userId page w1

/-- The refreshed page built inside `refresh`: re-scrape, merge
`getPageDetails(resource.url)`, re-check safety, keep the cached page's
`createdAt` (falling back to the summary's), stamp `updatedAt`. -/
def refreshPageOf (ext : Externals) (now : String) (resource : ResourceSummary)
    (base : Page) (w : World) : Page :=
  let merged := mergePage base (ext.getPageDetails resource.url)
  { merged with
      isSafe := if ext.hasGoogleApiKey then ext.checkSafeBrowsingAPI resource.url else true
      createdAt := some (((lookupKV w.page resource.url).bind Page.createdAt).getD resource.createdAt)
      updatedAt := some now }

/-- Source `refresh(userId, resourceId)`: `false` when the summary is absent;
otherwise re-scrape, cache the refreshed page under its (possibly new)
canonical URL and, when the URL changed, also under the old URL while
updating the summary's `url`/`updatedAt`/`updatedBy`; finally persist the
summary and its content-store entry and return `true`. -/
def refresh (ext : Externals) (now userId resourceId : String) (w : World) :
    Except String (Bool × World) :=
  match getResource w resourceId with
  | none => .ok (false, w)
  | some resource =>
    match ext.scrapeHTML resource.url with
    | .error e => .error e
    | .ok base =>
      let page := refreshPageOf ext now resource base w
      let w1 := { w with page := putKV w.page page.url page }
      let step :=
        if resource.url = page.url then (resource, w1)
        else ({ resource with url := page.url, updatedAt := now, updatedBy := userId },
              { w1 with page := putKV w1.page resource.url page })
      match updateResource ext step.1 (some page) step.2 with
      | .error e => .error e
      | .ok w2 => .ok (true, w2)

/-- Source `getDetails(resourceId)`: `null` when absent; on a hit, fire off an
un-awaited `updateResourceCache` (content refreshed only when the page
lookup succeeds) and return the stored summary. -/
def getDetails (ext : Externals) (resourceId : Option String) (w : World) :
    Option ResourceSummary × World :=
  match resourceId.bind (getResource w) with
  | none => (none, w)
  | some resource =>
    let w1 :=
      match updateResourceCache ext resource none w with
      | .ok w2 => w2
      | .error _ => w
    (some resource, w1)

/-- Source `view(resourceId)`: `false` when absent, otherwise persist the summary
with `viewCounts + 1` (un-awaited) and return `true`. -/
def view (ext : Externals) (resourceId : Option String) (w : World) :
    Bool × World :=
  match resourceId.bind (getResource w) with
  | none => (false, w)
  | some resource =>
    (true, updateResourceDetached ext
      { resource with viewCounts := resource.viewCounts + 1 } none w)

/-- Source `bookmark(userId, resourceId)`: append the user when absent; the write
is skipped exactly when `concat` did not run, i.e. when the array is the
same reference (`bookmarked !== resource.bookmarked`). -/
def bookmark (ext : Externals) (userId : String) (resourceId : Option String)
    (w : World) : Bool × World :=
  match resourceId.bind (getResource w) with
  | none => (false, w)
  | some resource =>
    if userId ∈ resource.bookmarked then (true, w)
    else
      (true, updateResourceDetached ext
        { resource with bookmarked := resource.bookmarked ++ [userId] } none w)

/-- Source `unbookmark(userId, resourceId)`: filter the user out when present; the
write is skipped exactly when `filter` did not run (same reference). -/
def unbookmark (ext : Externals) (userId : String) (resourceId : Option String)
    (w : World) : Bool × World :=
  match resourceId.bind (getResource w) with
  | none => (false, w)
  | some resource =>
    if userId ∈ resource.bookmarked then
      (true, updateResourceDetached ext
        { resource with bookmarked := resource.bookmarked.filter (fun id => id ≠ userId) }
        none w)
    else (true, w)

/-- The `index/URL` or `index/PackageName` blob read back from storage by
`createResourceStore` (`?? \x7b\x7d` when absent). -/
def loadIndex (storage : List (String × StorageVal)) (key : String) :
    List (String × String) :=
  match lookupKV storage key with
  | some (.index m) => m
  | _ => []

/-- The `/backup` branch: `state.storage.list()` dumped verbatim. -/
def backupRes (w : World) : List (String × StorageVal) :=
  w.storage

/-- The `/restore` branch: `state.storage.put(data)` merges every entry of
the dump into the key space, then `createResourceStore` runs again and
reloads both in-memory indices from the restored storage. -/
def restoreRes (data : List (String × StorageVal)) (w : World) : World :=
  let st := data.foldl (fun acc kv => putKV acc kv.1 kv.2) w.storage
  { w with
      storage := st
      urlIndex := loadIndex st "index/URL"
      pkgIndex := loadIndex st "index/PackageName" }

/-! The RPC boundary of the `ResourcesStore` durable object (`fetch`). -/

/-- A parsed RPC request, one constructor per route of `fetch`; `unknown`
stands for any path/method combination matching no branch. -/
inductive RpcRequest where
  | submitReq (url userId : String)
  | refreshReq (userId resourceId : String)
  | detailsReq (resourceId : Option String)
  | viewReq (resourceId : Option String)
  | bookmarkReq (userId : String) (resourceId : Option String)
  | unbookmarkReq (userId : String) (resourceId : Option String)
  | backupReq
  | restoreReq (data : List (String × StorageVal))
  | unknownReq
deriving DecidableEq, Repr

/-- The body of an RPC response; json bodies are kept structured instead of
being rendered to a string. -/
inductive ResponseBody where
  | text (s : String)
  | jsonSubmission (id : Option String) (status : SubmissionStatus)
  | jsonResource (r : ResourceSummary)
  | jsonBackup (data : List (String × StorageVal))
deriving DecidableEq, Repr

/-- An RPC response: status code plus body. -/
structure RpcResponse where
  status : Nat
  body : ResponseBody
deriving DecidableEq, Repr

/-- The generic server-error response produced by the catch-all branch of
`fetch`; its body is a fixed string carrying no detail of the error. -/
def genericError : RpcResponse :=
  { status := 500, body := .text "Internal Server Error" }

/-- The initial `Not found` response of `fetch`. -/
def notFoundResp : RpcResponse :=
  { status := 404, body := .text "Not found" }

/-- The plain `OK` response. -/
def okResp : RpcResponse :=
  { status := 200, body := .text "OK" }

/-- The durable object's instance state: `this.store` is `none` until the
blocking construction of `createResourceStore` has completed. -/
structure ResourcesStoreHost where
  store : Option World
deriving Repr

/-- Source `ResourcesStore.fetch`: route dispatch wrapped in a catch-all that maps
an uninitialized store or any thrown handler error to `genericError`. The
`/restore` branch merges the dump into storage and re-runs the actor
initialization, reloading both in-memory indices. -/
def fetchRpc (ext : Externals) (now fid : String) (req : RpcRequest)
    (h : ResourcesStoreHost) : RpcResponse × ResourcesStoreHost :=
  match h.store with
  | none => (genericError, h)
  | some w =>
    match req with
    | .submitReq url userId =>
      match submit ext now fid userId url w with
      | .ok (r, w1) => ({ status := 201, body := .jsonSubmission r.1 r.2 }, ⟨some w1⟩)
      | .error _ => (genericError, h)
    | .refreshReq userId resourceId =>
      match refresh ext now userId resourceId w with
      | .ok (true, w1) => (okResp, ⟨some w1⟩)
      | .ok (false, w1) => (notFoundResp, ⟨some w1⟩)
      | .error _ => (genericError, h)
    | .detailsReq resourceId =>
      let r := getDetails ext resourceId w
      (match r.1 with
       | some s => { status := 200, body := .jsonResource s }
       | none => notFoundResp, ⟨some r.2⟩)
    | .viewReq resourceId =>
      let r := view ext resourceId w
      (if r.1 then okResp else notFoundResp, ⟨some r.2⟩)
    | .bookmarkReq userId resourceId =>
      let r := bookmark ext userId resourceId w
      (if r.1 then okResp else notFoundResp, ⟨some r.2⟩)
    | .unbookmarkReq userId resourceId =>
      let r := unbookmark ext userId resourceId w
      (if r.1 then okResp else notFoundResp, ⟨some r.2⟩)
    | .backupReq =>
      ({ status := 200, body := .jsonBackup (backupRes w) }, h)
    | .restoreReq data =>
      (okResp, ⟨some (restoreRes data w)⟩)
    | .unknownReq => (notFoundResp, h)

/-! JSON rendering of the records crossing the RPC boundary, used to state
what a caller receives from `/details`. `JSON.stringify` omits fields whose
value is `undefined`. -/

/-- Render a JSON string literal (the values in play contain no character
needing an escape). -/
def jsonStr (s : String) : String :=
  String.append "\"" (String.append s "\"")

/-- Render a JSON object from rendered fields. -/
def jsonObj (fields : List (String × String)) : String :=
  String.append "\x7b"
    (String.append
      (String.intercalate "," (fields.map (fun p => String.append (jsonStr p.1) (String.append ":" p.2))))
      "\x7d")

/-- Render a JSON array from rendered elements. -/
def jsonArr (xs : List String) : String :=
  String.append "[" (String.append (String.intercalate "," xs) "]")

/-- Render an optional string field, omitted when absent as
`JSON.stringify` does for `undefined`. -/
def optField (name : String) (v : Option String) : List (String × String) :=
  match v with
  | none => []
  | some s => [(name, jsonStr s)]

/-- The JSON object serialized from a `ResourceSummary`: exactly its eight
fields. -/
def summaryJson (s : ResourceSummary) : String :=
  jsonObj [("id", jsonStr s.id), ("url", jsonStr s.url),
           ("bookmarked", jsonArr (s.bookmarked.map jsonStr)),
           ("viewCounts", toString s.viewCounts),
           ("createdAt", jsonStr s.createdAt), ("createdBy", jsonStr s.createdBy),
           ("updatedAt", jsonStr s.updatedAt), ("updatedBy", jsonStr s.updatedBy)]

/-- The JSON object serialized from a full `Resource`: the summary fields
followed by the scraped/derived fields. -/
def resourceJson (r : Resource) : String :=
  jsonObj ([("id", jsonStr r.id), ("url", jsonStr r.url),
            ("bookmarked", jsonArr (r.bookmarked.map jsonStr)),
            ("viewCounts", toString r.viewCounts),
            ("createdAt", jsonStr r.createdAt), ("createdBy", jsonStr r.createdBy),
            ("updatedAt", jsonStr r.updatedAt), ("updatedBy", jsonStr r.updatedBy)]
           ++ optField "category" r.category
           ++ optField "author" r.author
           ++ [("title", jsonStr r.title)]
           ++ optField "description" r.description
           ++ optField "image" r.image
           ++ optField "video" r.video
           ++ [("isSafe", if r.isSafe then "true" else "false")]
           ++ (match r.dependencies with
               | none => []
               | some deps => [("dependencies", jsonObj (deps.map (fun p => (p.1, jsonStr p.2))))])
           ++ (match r.configs with
               | none => []
               | some cs => [("configs", jsonArr (cs.map jsonStr))])
           ++ [("integrations", jsonArr (r.integrations.map jsonStr))])

/-- Follows the spec's words for `getDetails`: on a hit, return the full
`Resource`, i.e. the stored summary extended with the scraped/derived
fields taken from the page data of the summary's URL. -/
def getDetailsSpec (ext : Externals) (resourceId : Option String) (w : World) :
    Option Resource :=
  match resourceId.bind (getResource w) with
  | none => none
  | some summary =>
    match lookupKV w.page summary.url with
    | none => none
    | some page => some (resourceOf ext (w.pkgIndex.map Prod.fst) summary page)

/-- Iterated `view(id)`, called `n` times in sequence: the returned booleans
and the final state. -/
def viewTimes (ext : Externals) (id : String) : Nat → World → List Bool × World
  | 0, w => ([], w)
  | n + 1, w =>
    let r := view ext (some id) w
    let rest := viewTimes ext id n r.2
    (r.1 :: rest.1, rest.2)

/-! Concrete fixtures used to instantiate the theorems on closed inputs. -/

/-- A concrete safe page. -/
def pageFix : Page :=
  { url := "https://remix.run/docs"
    category := none
    author := none
    title := "Remix Docs"
    description := some "The docs"
    image := none
    video := none
    isSafe := true
    dependencies := none
    configs := none
    createdAt := none
    updatedAt := none }

/-- The same page flagged unsafe. -/
def pageUnsafeFix : Page :=
  { pageFix with isSafe := false }

/-- Concrete external collaborators whose scraper echoes the requested URL. -/
def extFix : Externals :=
  { scrapeHTML := fun u => .ok { pageFix with url := u }
    getPageDetails := fun _ => {}
    hasGoogleApiKey := false
    checkSafeBrowsingAPI := fun _ => true
    getIntegrations := fun _ _ _ => []
    getIntegrationsFromPage := fun _ _ => [] }

/-- External collaborators whose scraper always throws. -/
def extFailFix : Externals :=
  { extFix with scrapeHTML := fun _ => .error "network down" }

/-- The empty world. -/
def emptyWorld : World :=
  { storage := [], urlIndex := [], pkgIndex := [], page := [], content := [] }

/-- A concrete stored summary. -/
def summaryFix : ResourceSummary :=
  { id := "R1"
    url := "https://remix.run/docs"
    bookmarked := []
    viewCounts := 3
    createdAt := "t0"
    createdBy := "alice"
    updatedAt := "t0"
    updatedBy := "alice" }

/-- A world holding `summaryFix`, its dedup index entry and its page. -/
def worldFix : World :=
  { storage := [("R1", .summary summaryFix)]
    urlIndex := [("https://remix.run/docs", "R1")]
    pkgIndex := []
    page := [("https://remix.run/docs", pageFix)]
    content := [] }

/-- Variant of `worldFix` whose cached page for the registered URL is flagged unsafe. -/
def worldUnsafeFix : World :=
  { worldFix with page := [("https://remix.run/docs", pageUnsafeFix)] }

/-- A world whose storage also persists both index blobs, as left behind by
a successful first submission. -/
def worldBackupFix : World :=
  { storage := [("R1", .summary summaryFix),
                ("index/URL", .index [("https://remix.run/docs", "R1")]),
                ("index/PackageName", .index [])]
    urlIndex := [("https://remix.run/docs", "R1")]
    pkgIndex := []
    page := [("https://remix.run/docs", pageFix)]
    content := [] }

/-! Helper lemmas about the association-list operations and about which
world components each store operation touches. -/

theorem lookupKV_putKV_self {α : Type} (l : List (String × α)) (k : String) (v : α) :
    lookupKV (putKV l k v) k = some v := by
  induction l with
  | nil => simp [putKV, lookupKV]
  | cons hd tl ih =>
    by_cases h : hd.1 = k
    · simp [putKV, h, lookupKV]
    · simp [putKV, h, lookupKV, ih]

theorem lookupKV_putKV_ne {α : Type} (l : List (String × α)) (k k' : String) (v : α)
    (h : k ≠ k') : lookupKV (putKV l k v) k' = lookupKV l k' := by
  induction l with
  | nil => simp [putKV, lookupKV, h]
  | cons hd tl ih =>
    by_cases hk : hd.1 = k
    · simp [putKV, hk, lookupKV, h]
    · by_cases hk' : hd.1 = k'
      · simp [putKV, hk, lookupKV, hk', Ne.symm h]
      · simp [putKV, hk, lookupKV, hk', ih]

theorem putKV_self_of_mem {α : Type} (l : List (String × α)) (k : String) (v : α)
    (hmem : (k, v) ∈ l) (hnodup : (l.map Prod.fst).Nodup) : putKV l k v = l := by
  induction l with
  | nil => cases hmem
  | cons hd tl ih =>
    simp only [List.map_cons, List.nodup_cons] at hnodup
    rcases List.mem_cons.mp hmem with heq | hmem'
    · subst heq
      simp [putKV]
    · have hne : hd.1 ≠ k := by
        intro hcontra
        exact hnodup.1 (hcontra ▸ (List.mem_map.mpr ⟨(k, v), hmem', rfl⟩))
      simp [putKV, hne, ih hmem' hnodup.2]

theorem foldl_putKV_self {α : Type} (data l : List (String × α))
    (hsub : ∀ kv ∈ data, kv ∈ l) (hnodup : (l.map Prod.fst).Nodup) :
    data.foldl (fun acc kv => putKV acc kv.1 kv.2) l = l := by
  induction data with
  | nil => rfl
  | cons hd tl ih =>
    have h1 : putKV l hd.1 hd.2 = l :=
      putKV_self_of_mem l hd.1 hd.2 (hsub hd (List.mem_cons_self hd tl)) hnodup
    simpa [h1] using ih (fun kv hkv => hsub kv (List.mem_cons_of_mem hd hkv))

theorem getResource_of_stored (w : World) (id : String) (s : ResourceSummary)
    (h : lookupKV w.storage id = some (.summary s)) : getResource w id = some s := by
  simp [getResource, h]

theorem updateResourceCache_ok_components (ext : Externals) (s : ResourceSummary)
    (p : Option Page) (w w' : World) (h : updateResourceCache ext s p w = .ok w') :
    w'.storage = w.storage ∧ w'.urlIndex = w.urlIndex ∧ w'.pkgIndex = w.pkgIndex ∧
      w'.page = w.page := by
  unfold updateResourceCache at h
  rcases hp : p.orElse (fun _ => lookupKV w.page s.url) with _ | pg
  · rw [hp] at h
    cases h
  · rw [hp] at h
    cases h
    exact ⟨rfl, rfl, rfl, rfl⟩

theorem updateResourceDetached_components (ext : Externals) (s : ResourceSummary)
    (p : Option Page) (w : World) :
    (updateResourceDetached ext s p w).storage = putKV w.storage s.id (.summary s) ∧
    (updateResourceDetached ext s p w).urlIndex = w.urlIndex ∧
    (updateResourceDetached ext s p w).pkgIndex = w.pkgIndex ∧
    (updateResourceDetached ext s p w).page = w.page := by
  unfold updateResourceDetached
  rcases hc : updateResourceCache ext s p
      { w with storage := putKV w.storage s.id (.summary s) } with e | w2
  · simp [hc]
  · simp only [hc]
    have h2 := updateResourceCache_ok_components ext s p _ w2 hc
    exact ⟨h2.1, h2.2.1, h2.2.2.1, h2.2.2.2⟩

theorem updateResource_some_ok (ext : Externals) (s : ResourceSummary) (pg : Page)
    (w : World) :
    updateResource ext s (some pg) w =
      .ok { storage := putKV w.storage s.id (.summary s)
            urlIndex := w.urlIndex
            pkgIndex := w.pkgIndex
            page := w.page
            content := putKV w.content (String.append "resources/" s.id)
              (resourceOf ext (w.pkgIndex.map Prod.fst) s pg,
               resourceMetadataOf (resourceOf ext (w.pkgIndex.map Prod.fst) s pg)) } := rfl

theorem createResource_safe (ext : Externals) (now fid userId : String) (page : Page)
    (w : World) (hsafe : page.isSafe = true) :
    ∃ w1, createResource ext now fid userId page w =
        .ok ((some fid, SubmissionStatus.PUBLISHED), w1) ∧
      w1.urlIndex = w.urlIndex ∧ w1.page = w.page := by
  unfold createResource
  rw [updateResource_some_ok]
  by_cases hcat : page.category = some "package" <;> simp [hsafe, hcat]

theorem submitWithPage_resubmitted (ext : Externals) (now fid userId : String)
    (page : Page) (w : World) (i : String)
    (hidx : lookupKV w.urlIndex page.url = some i) (hi : i ≠ "") :
    submitWithPage ext now fid userId page w =
      .ok ((some i, SubmissionStatus.RESUBMITTED), w) := by
  unfold submitWithPage
  rw [hidx]
  simp [jsTruthy, hi]

theorem submitWithPage_published (ext : Externals) (now fid userId : String)
    (page : Page) (w : World)
    (hidx : lookupKV w.urlIndex page.url = none)
    (hsafe : page.isSafe = true) (hfid : fid ≠ "") :
    ∃ w1, submitWithPage ext now fid userId page w =
        .ok ((some fid, SubmissionStatus.PUBLISHED), w1) ∧
      lookupKV w1.urlIndex page.url = some fid ∧
      w1.page = w.page := by
  obtain ⟨wB, hcr, hBurl, hBpage⟩ := createResource_safe ext now fid userId page w hsafe
  unfold submitWithPage
  rw [hidx, hcr]
  refine ⟨{ storage := putKV wB.storage "index/URL"
              (StorageVal.index (putKV wB.urlIndex page.url fid))
            urlIndex := putKV wB.urlIndex page.url fid
            pkgIndex := wB.pkgIndex
            page := wB.page
            content := wB.content }, ?_, ?_, ?_⟩
  · simp [jsTruthy, hfid]
  · simp [lookupKV_putKV_self]
  · simpa using hBpage

theorem submitWithPage_invalid (ext : Externals) (now fid userId : String)
    (page : Page) (w : World)
    (hfalse : jsTruthy (lookupKV w.urlIndex page.url) = false)
    (hflag : page.isSafe = false) :
    submitWithPage ext now fid userId page w =
      .ok ((none, SubmissionStatus.INVALID), w) := by
  unfold submitWithPage
  simp [hfalse, createResource, hflag]

theorem submitWithPage_published_any (ext : Externals) (now fid userId : String)
    (page : Page) (w : World)
    (hfalse : jsTruthy (lookupKV w.urlIndex page.url) = false)
    (hsafe : page.isSafe = true) :
    ∃ w1, submitWithPage ext now fid userId page w =
      .ok ((some fid, SubmissionStatus.PUBLISHED), w1) := by
  obtain ⟨wB, hcr, hBurl, hBpage⟩ := createResource_safe ext now fid userId page w hsafe
  unfold submitWithPage
  simp only [hfalse, Bool.false_eq_true, if_false, hcr]
  by_cases hfid : fid = "" <;> simp [hfid]

theorem submit_eq_withPage (ext : Externals) (now fid userId url : String)
    (w : World) (p : Page) (hp : effectivePage ext now url w = .ok p) :
    submit ext now fid userId url w =
      submitWithPage ext now fid userId p
        (if (lookupKV w.page url).isSome then w
         else { w with page := putKV w.page p.url p }) := by
  unfold submit
  rw [hp]

theorem submitMid_components (w w1 : World) (url : String) (p : Page)
    (h : w1 = if (lookupKV w.page url).isSome then w
              else { w with page := putKV w.page p.url p }) :
    w1.storage = w.storage ∧ w1.urlIndex = w.urlIndex ∧
      w1.pkgIndex = w.pkgIndex ∧ w1.content = w.content := by
  subst h
  by_cases hc : (lookupKV w.page url).isSome <;> simp [hc]

/-! Claim theorems. -/

/-- C8: the `ResourceMetadata` sidecar written to the content store by
`updateResourceCache` is computed only from the `Resource` being written:
its `description` equals the resource's description truncated to at most
80 characters, and its `bookmarkCounts` equals the length of the
resource's `bookmarked` list. -/
theorem resource_metadata_projection :
    (∀ r : Resource,
       (resourceMetadataOf r).description = r.description.map (fun s => sliceTo s 80) ∧
       (resourceMetadataOf r).bookmarkCounts = r.bookmarked.length ∧
       ∀ d, (resourceMetadataOf r).description = some d → d.length ≤ 80) ∧
    (∀ (ext : Externals) (s : ResourceSummary) (p : Option Page) (w w' : World),
       updateResourceCache ext s p w = .ok w' →
       ∃ r : Resource, w'.content =
         putKV w.content (String.append "resources/" r.id) (r, resourceMetadataOf r)) := by
  constructor
  · intro r
    refine ⟨rfl, rfl, ?_⟩
    intro d hd
    rcases hdesc : r.description with _ | s
    · simp [resourceMetadataOf, hdesc] at hd
    · simp only [resourceMetadataOf, hdesc, Option.map_some', Option.some.injEq] at hd
      have hlen : d.length = (s.toList.take 80).length := by
        rw [← hd]
        rfl
      rw [hlen, List.length_take]
      exact Nat.min_le_left 80 s.toList.length
  · intro ext s p w w' h
    unfold updateResourceCache at h
    rcases hp : p.orElse (fun _ => lookupKV w.page s.url) with _ | pg
    · rw [hp] at h
      cases h
    · rw [hp] at h
      cases h
      exact ⟨resourceOf ext (w.pkgIndex.map Prod.fst) s pg, rfl⟩

/-- C8 witness: the projection facts evaluated on a concrete resource and a
concrete `updateResourceCache` run. -/
theorem resource_metadata_projection_witness :
    (resourceMetadataOf (resourceOf extFix [] summaryFix pageFix)).bookmarkCounts =
      (resourceOf extFix [] summaryFix pageFix).bookmarked.length ∧
    ∃ w' : World, updateResourceCache extFix summaryFix (some pageFix) worldFix = .ok w' ∧
      ∃ r : Resource, w'.content =
        putKV worldFix.content (String.append "resources/" r.id) (r, resourceMetadataOf r) := by
  refine ⟨(resource_metadata_projection.1 (resourceOf extFix [] summaryFix pageFix)).2.1, ?_⟩
  exact ⟨_, rfl, resource_metadata_projection.2 extFix summaryFix (some pageFix) worldFix _ rfl⟩

/-- C2 counterexample: in a reachable state where the URL is already
registered in the dedup index but its cached page representation is
flagged unsafe, `submit` returns `RESUBMITTED` with the registered id, not
`\x7bid: null, status: INVALID\x7d` as the claim states for every unsafe
submission. -/
theorem submit_safety_gate_counterexample :
    (lookupKV worldUnsafeFix.page "https://remix.run/docs").map Page.isSafe = some false ∧
    submit extFix "t1" "F1" "bob" "https://remix.run/docs" worldUnsafeFix =
      .ok ((some "R1", SubmissionStatus.RESUBMITTED), worldUnsafeFix) ∧
    some "R1" ≠ (none : Option String) ∧
    SubmissionStatus.RESUBMITTED ≠ SubmissionStatus.INVALID := by
  exact ⟨rfl, rfl, by decide, by decide⟩

/-- C2 amended: for every `submit` call whose effective page is flagged
unsafe and whose canonical URL is not yet registered in the dedup index,
the call returns `\x7bid: null, status: INVALID\x7d` and leaves the
`urlIndex`, the `packageNameIndex`, the actor's summary storage and the
content store unchanged. -/
theorem submit_safety_gate (ext : Externals) (now fid userId url : String)
    (w : World) (p : Page)
    (hp : effectivePage ext now url w = .ok p)
    (hflag : p.isSafe = false)
    (hfresh : lookupKV w.urlIndex p.url = none) :
    ∃ w1, submit ext now fid userId url w = .ok ((none, SubmissionStatus.INVALID), w1) ∧
      w1.storage = w.storage ∧ w1.urlIndex = w.urlIndex ∧
      w1.pkgIndex = w.pkgIndex ∧ w1.content = w.content := by
  rw [submit_eq_withPage ext now fid userId url w p hp]
  obtain ⟨hst, hurl, hpkg, hcon⟩ := submitMid_components w _ url p rfl
  refine ⟨_, ?_, hst, hurl, hpkg, hcon⟩
  refine submitWithPage_invalid ext now fid userId p _ ?_ hflag
  rw [hurl, hfresh]
  rfl

/-- C2 witness: the amended safety-gate theorem evaluated on a fresh world
whose scraped page for the submitted URL is unsafe. -/
theorem submit_safety_gate_witness :
    ∃ w1, submit extFix "t1" "F1" "bob" "u1"
        { emptyWorld with page := [("u1", pageUnsafeFix)] } =
        .ok ((none, SubmissionStatus.INVALID), w1) ∧
      w1.storage = emptyWorld.storage ∧ w1.urlIndex = emptyWorld.urlIndex ∧
      w1.pkgIndex = emptyWorld.pkgIndex ∧ w1.content = emptyWorld.content := by
  exact submit_safety_gate extFix "t1" "F1" "bob" "u1"
    { emptyWorld with page := [("u1", pageUnsafeFix)] } pageUnsafeFix rfl rfl rfl

/-- Induction helper for C3: iterating `view` on a stored resource returns
`true` every time and adds exactly the number of calls to `viewCounts`. -/
theorem viewTimes_spec (ext : Externals) (id : String) (n : Nat) :
    ∀ (w : World) (s : ResourceSummary),
      lookupKV w.storage id = some (.summary s) → s.id = id →
      (viewTimes ext id n w).1 = List.replicate n true ∧
      lookupKV (viewTimes ext id n w).2.storage id =
        some (.summary { s with viewCounts := s.viewCounts + n }) := by
  induction n with
  | zero =>
    intro w s h hid
    exact ⟨rfl, by simpa using h⟩
  | succ n ih =>
    intro w s h hid
    have hres : getResource w id = some s := getResource_of_stored w id s h
    have hview : view ext (some id) w =
        (true, updateResourceDetached ext { s with viewCounts := s.viewCounts + 1 } none w) := by
      simp [view, hres]
    have hstore := (updateResourceDetached_components ext
      { s with viewCounts := s.viewCounts + 1 } none w).1
    have hlook : lookupKV (updateResourceDetached ext
        { s with viewCounts := s.viewCounts + 1 } none w).storage id =
        some (.summary { s with viewCounts := s.viewCounts + 1 }) := by
      rw [hstore]
      have : ({ s with viewCounts := s.viewCounts + 1 } : ResourceSummary).id = id := hid
      rw [show ({ s with viewCounts := s.viewCounts + 1 } : ResourceSummary).id = id from hid]
      exact lookupKV_putKV_self _ _ _
    have hrec := ih (updateResourceDetached ext
      { s with viewCounts := s.viewCounts + 1 } none w)
      { s with viewCounts := s.viewCounts + 1 } hlook hid
    constructor
    · simp only [viewTimes, hview, List.replicate]
      exact congrArg (List.cons true) hrec.1
    · simp only [viewTimes, hview]
      rw [hrec.2]
      have harith : s.viewCounts + 1 + n = s.viewCounts + (n + 1) := by omega
      simp [harith]

/-- C3: `view(id)` called `N` times on an existing resource returns `true`
every time and increases its stored `viewCounts` by exactly `N`; `view` on
an id with no stored record returns `false` and leaves the state
unchanged. -/
theorem view_monotone :
    (∀ (ext : Externals) (w : World) (id : String) (s : ResourceSummary) (n : Nat),
       lookupKV w.storage id = some (.summary s) → s.id = id →
       (viewTimes ext id n w).1 = List.replicate n true ∧
       lookupKV (viewTimes ext id n w).2.storage id =
         some (.summary { s with viewCounts := s.viewCounts + n })) ∧
    (∀ (ext : Externals) (w : World) (id : String),
       lookupKV w.storage id = none → view ext (some id) w = (false, w)) := by
  constructor
  · intro ext w id s n h hid
    exact viewTimes_spec ext id n w s h hid
  · intro ext w id h
    simp [view, getResource, h]

/-- C3 witness: three views of the concrete stored resource go from
viewCounts 3 to 6 returning `true` each time, and a view of a missing id
returns `false` unchanged. -/
theorem view_monotone_witness :
    ((viewTimes extFix "R1" 3 worldFix).1 = List.replicate 3 true ∧
     lookupKV (viewTimes extFix "R1" 3 worldFix).2.storage "R1" =
       some (.summary { summaryFix with viewCounts := 6 })) ∧
    view extFix (some "missing") worldFix = (false, worldFix) := by
  constructor
  · exact view_monotone.1 extFix worldFix "R1" summaryFix 3 rfl rfl
  · exact view_monotone.2 extFix worldFix "missing" rfl

/-- C4: on an existing resource whose `bookmarked` list holds a user at
most once, bookmarking that user twice returns `true` both times and
leaves the user appearing exactly once in the stored list; `bookmark` when
the user is already present and `unbookmark` when the user is absent are
no-ops that skip the write entirely (the resulting list equals the stored
one), returning `true`. -/
theorem bookmark_idempotent :
    (∀ (ext : Externals) (w : World) (id u : String) (s : ResourceSummary),
       lookupKV w.storage id = some (.summary s) → s.id = id →
       s.bookmarked.count u ≤ 1 →
       (bookmark ext u (some id) w).1 = true ∧
       (bookmark ext u (some id) (bookmark ext u (some id) w).2).1 = true ∧
       ∃ s2, lookupKV (bookmark ext u (some id) (bookmark ext u (some id) w).2).2.storage id
           = some (.summary s2) ∧ s2.bookmarked.count u = 1) ∧
    (∀ (ext : Externals) (w : World) (id u : String) (s : ResourceSummary),
       lookupKV w.storage id = some (.summary s) → s.id = id →
       u ∈ s.bookmarked → bookmark ext u (some id) w = (true, w)) ∧
    (∀ (ext : Externals) (w : World) (id u : String) (s : ResourceSummary),
       lookupKV w.storage id = some (.summary s) → s.id = id →
       u ∉ s.bookmarked → unbookmark ext u (some id) w = (true, w)) := by
  have hskip : ∀ (ext : Externals) (w : World) (id u : String) (s : ResourceSummary),
      lookupKV w.storage id = some (.summary s) → s.id = id →
      u ∈ s.bookmarked → bookmark ext u (some id) w = (true, w) := by
    intro ext w id u s h hid hmem
    have hres : getResource w id = some s := getResource_of_stored w id s h
    simp [bookmark, hres, hmem]
  refine ⟨?_, hskip, ?_⟩
  · intro ext w id u s h hid hcount
    by_cases hmem : u ∈ s.bookmarked
    · have h1 : bookmark ext u (some id) w = (true, w) := hskip ext w id u s h hid hmem
      rw [h1]
      refine ⟨rfl, by rw [h1], ?_⟩
      rw [h1]
      refine ⟨s, h, ?_⟩
      have hpos : 0 < s.bookmarked.count u := List.count_pos_iff.mpr hmem
      omega
    · have hres : getResource w id = some s := getResource_of_stored w id s h
      have h1 : bookmark ext u (some id) w =
          (true, updateResourceDetached ext
            { s with bookmarked := s.bookmarked ++ [u] } none w) := by
        simp [bookmark, hres, hmem]
      have hstore := (updateResourceDetached_components ext
        { s with bookmarked := s.bookmarked ++ [u] } none w).1
      have hlook : lookupKV (updateResourceDetached ext
          { s with bookmarked := s.bookmarked ++ [u] } none w).storage id =
          some (.summary { s with bookmarked := s.bookmarked ++ [u] }) := by
        rw [hstore]
        rw [show ({ s with bookmarked := s.bookmarked ++ [u] } : ResourceSummary).id = id from hid]
        exact lookupKV_putKV_self _ _ _
      have hmem2 : u ∈ ({ s with bookmarked := s.bookmarked ++ [u] } : ResourceSummary).bookmarked := by
        simp
      have h2 := hskip ext (updateResourceDetached ext
        { s with bookmarked := s.bookmarked ++ [u] } none w) id u
        { s with bookmarked := s.bookmarked ++ [u] } hlook hid hmem2
      rw [h1]
      refine ⟨rfl, by rw [h2], ?_⟩
      rw [h2]
      refine ⟨{ s with bookmarked := s.bookmarked ++ [u] }, hlook, ?_⟩
      have hzero : s.bookmarked.count u = 0 := List.count_eq_zero.mpr hmem
      simp [List.count_append, hzero]
  · intro ext w id u s h hid hmem
    have hres : getResource w id = some s := getResource_of_stored w id s h
    simp [unbookmark, hres, hmem]

/-- C4 witness: the double-bookmark conclusion, the bookmark skip and the
unbookmark no-op evaluated on the concrete stored resource. -/
theorem bookmark_idempotent_witness :
    ((bookmark extFix "alice" (some "R1") worldFix).1 = true ∧
     (bookmark extFix "alice" (some "R1")
        (bookmark extFix "alice" (some "R1") worldFix).2).1 = true ∧
     ∃ s2, lookupKV (bookmark extFix "alice" (some "R1")
         (bookmark extFix "alice" (some "R1") worldFix).2).2.storage "R1"
         = some (.summary s2) ∧ s2.bookmarked.count "alice" = 1) ∧
    unbookmark extFix "bob" (some "R1") worldFix = (true, worldFix) := by
  constructor
  · exact bookmark_idempotent.1 extFix worldFix "R1" "alice" summaryFix rfl rfl (by decide)
  · exact bookmark_idempotent.2.2 extFix worldFix "R1" "bob" summaryFix rfl rfl (by decide)

/-- C5: restoring a backup taken from the current state leaves the durable
key space literally identical, re-runs the initialization that reloads
both in-memory indices from the restored storage, and a subsequent submit
of a URL registered in the restored index is detected as a duplicate
(`RESUBMITTED` with the registered id) without touching storage. -/
theorem backup_restore_roundtrip :
    (∀ w : World, (w.storage.map Prod.fst).Nodup →
       (restoreRes (backupRes w) w).storage = w.storage ∧
       (restoreRes (backupRes w) w).urlIndex = loadIndex w.storage "index/URL" ∧
       (restoreRes (backupRes w) w).pkgIndex = loadIndex w.storage "index/PackageName" ∧
       (restoreRes (backupRes w) w).page = w.page ∧
       (restoreRes (backupRes w) w).content = w.content) ∧
    (∀ (ext : Externals) (now fid userId url : String) (w : World) (p : Page) (rid : String),
       (w.storage.map Prod.fst).Nodup →
       effectivePage ext now url (restoreRes (backupRes w) w) = .ok p →
       lookupKV (loadIndex w.storage "index/URL") p.url = some rid → rid ≠ "" →
       ∃ w2, submit ext now fid userId url (restoreRes (backupRes w) w) =
           .ok ((some rid, SubmissionStatus.RESUBMITTED), w2) ∧
         w2.storage = w.storage ∧ w2.urlIndex = loadIndex w.storage "index/URL") := by
  have hself : ∀ w : World, (w.storage.map Prod.fst).Nodup →
      (restoreRes (backupRes w) w).storage = w.storage := by
    intro w hnodup
    exact foldl_putKV_self w.storage w.storage (fun kv hkv => hkv) hnodup
  constructor
  · intro w hnodup
    refine ⟨hself w hnodup, ?_, ?_, rfl, rfl⟩
    · show loadIndex ((restoreRes (backupRes w) w).storage) "index/URL" =
        loadIndex w.storage "index/URL"
      rw [hself w hnodup]
    · show loadIndex ((restoreRes (backupRes w) w).storage) "index/PackageName" =
        loadIndex w.storage "index/PackageName"
      rw [hself w hnodup]
  · intro ext now fid userId url w p rid hnodup hp hidx hrid
    rw [submit_eq_withPage ext now fid userId url _ p hp]
    obtain ⟨hst, hurl, hpkg, hcon⟩ :=
      submitMid_components (restoreRes (backupRes w) w) _ url p rfl
    have hurlIdx : (restoreRes (backupRes w) w).urlIndex =
        loadIndex w.storage "index/URL" := by
      show loadIndex ((restoreRes (backupRes w) w).storage) "index/URL" =
        loadIndex w.storage "index/URL"
      rw [hself w hnodup]
    refine ⟨_, submitWithPage_resubmitted ext now fid userId p _ rid ?_ hrid, ?_, ?_⟩
    · rw [hurl, hurlIdx]
      exact hidx
    · rw [hst, hself w hnodup]
    · rw [hurl, hurlIdx]

/-- C5 witness: the round trip and the duplicate detection evaluated on a
concrete world whose storage holds a summary and both index blobs. -/
theorem backup_restore_roundtrip_witness :
    ((restoreRes (backupRes worldBackupFix) worldBackupFix).storage = worldBackupFix.storage ∧
     (restoreRes (backupRes worldBackupFix) worldBackupFix).urlIndex =
       loadIndex worldBackupFix.storage "index/URL" ∧
     (restoreRes (backupRes worldBackupFix) worldBackupFix).pkgIndex =
       loadIndex worldBackupFix.storage "index/PackageName" ∧
     (restoreRes (backupRes worldBackupFix) worldBackupFix).page = worldBackupFix.page ∧
     (restoreRes (backupRes worldBackupFix) worldBackupFix).content = worldBackupFix.content) ∧
    ∃ w2, submit extFix "t2" "F2" "bob" "https://remix.run/docs"
        (restoreRes (backupRes worldBackupFix) worldBackupFix) =
        .ok ((some "R1", SubmissionStatus.RESUBMITTED), w2) ∧
      w2.storage = worldBackupFix.storage ∧
      w2.urlIndex = loadIndex worldBackupFix.storage "index/URL" := by
  constructor
  · exact backup_restore_roundtrip.1 worldBackupFix (by decide)
  · exact backup_restore_roundtrip.2 extFix "t2" "F2" "bob" "https://remix.run/docs"
      worldBackupFix pageFix "R1" (by decide) rfl rfl (by decide)

theorem effectivePage_hit (ext : Externals) (now url : String) (w : World) (q : Page)
    (h : lookupKV w.page url = some q) : effectivePage ext now url w = .ok q := by
  unfold effectivePage
  rw [h]

theorem effectivePage_miss (ext : Externals) (now url : String) (w : World) (base : Page)
    (h : lookupKV w.page url = none) (hs : ext.scrapeHTML url = .ok base) :
    effectivePage ext now url w =
      .ok { mergePage base (ext.getPageDetails base.url) with
              isSafe := if ext.hasGoogleApiKey then ext.checkSafeBrowsingAPI base.url else true
              createdAt := some now
              updatedAt := some now } := by
  unfold effectivePage
  rw [h, hs]

/-- C10: a `submit` result carries a `null` id exactly when its status is
`INVALID`; a `PUBLISHED` result carries the freshly generated id and a
`RESUBMITTED` result carries the non-empty id previously registered in the
dedup index. -/
theorem submit_id_status_invariant (ext : Externals) (now fid userId url : String)
    (w w' : World) (oid : Option String) (st : SubmissionStatus)
    (h : submit ext now fid userId url w = .ok ((oid, st), w')) :
    (oid = none ↔ st = SubmissionStatus.INVALID) ∧
    (st = SubmissionStatus.PUBLISHED → oid = some fid) ∧
    (st = SubmissionStatus.RESUBMITTED →
       ∃ i, oid = some i ∧ i ≠ "" ∧ ∃ u, lookupKV w.urlIndex u = some i) := by
  rcases hp : effectivePage ext now url w with e | p
  · unfold submit at h
    rw [hp] at h
    cases h
  · rw [submit_eq_withPage ext now fid userId url w p hp] at h
    obtain ⟨hst, hurl, hpkg, hcon⟩ := submitMid_components w _ url p rfl
    set wmid := (if (lookupKV w.page url).isSome then w
        else { w with page := putKV w.page p.url p }) with hmid
    by_cases ht : jsTruthy (lookupKV wmid.urlIndex p.url) = true
    · obtain ⟨i, hi, hine⟩ : ∃ i, lookupKV wmid.urlIndex p.url = some i ∧ i ≠ "" := by
        rcases hq : lookupKV wmid.urlIndex p.url with _ | i
        · rw [hq] at ht
          simp [jsTruthy] at ht
        · refine ⟨i, rfl, ?_⟩
          rw [hq] at ht
          simpa [jsTruthy] using ht
      rw [submitWithPage_resubmitted ext now fid userId p wmid i hi hine] at h
      simp only [Except.ok.injEq, Prod.mk.injEq] at h
      obtain ⟨⟨hoid, hst2⟩, hw⟩ := h
      subst hoid
      subst hst2
      refine ⟨?_, ?_, ?_⟩
      · simp
      · intro hx
        cases hx
      · intro _
        refine ⟨i, rfl, hine, p.url, ?_⟩
        rw [← hurl]
        exact hi
    · have ht' : jsTruthy (lookupKV wmid.urlIndex p.url) = false := by
        simpa using ht
      by_cases hsafe : p.isSafe = false
      · rw [submitWithPage_invalid ext now fid userId p wmid ht' hsafe] at h
        simp only [Except.ok.injEq, Prod.mk.injEq] at h
        obtain ⟨⟨hoid, hst2⟩, hw⟩ := h
        subst hoid
        subst hst2
        refine ⟨?_, ?_, ?_⟩
        · simp
        · intro hx
          cases hx
        · intro hx
          cases hx
      · have hsafe' : p.isSafe = true := by
          simpa using hsafe
        obtain ⟨w1, heq⟩ :=
          submitWithPage_published_any ext now fid userId p wmid ht' hsafe'
        rw [heq] at h
        simp only [Except.ok.injEq, Prod.mk.injEq] at h
        obtain ⟨⟨hoid, hst2⟩, hw⟩ := h
        subst hoid
        subst hst2
        refine ⟨?_, ?_, ?_⟩
        · simp
        · intro _
          rfl
        · intro hx
          cases hx

/-- C10 witness: a concrete first submission is `PUBLISHED` with a non-null
id, on which the invariant is instantiated. -/
theorem submit_id_status_invariant_witness :
    ∃ oid st w', submit extFix "t1" "Fresh1" "alice" "u9" emptyWorld = .ok ((oid, st), w') ∧
      ((oid = none ↔ st = SubmissionStatus.INVALID) ∧
       (st = SubmissionStatus.PUBLISHED → oid = some "Fresh1") ∧
       (st = SubmissionStatus.RESUBMITTED →
          ∃ i, oid = some i ∧ i ≠ "" ∧ ∃ u, lookupKV emptyWorld.urlIndex u = some i)) := by
  refine ⟨_, _, _, rfl, ?_⟩
  exact submit_id_status_invariant extFix "t1" "Fresh1" "alice" "u9" emptyWorld _ _ _ rfl

/-- C1: submitting a safe, not yet registered URL publishes it with the
fresh id, and a second submission of the same URL (any user, any later
timestamp, any other candidate id) returns the same id with status
`RESUBMITTED`, leaving the summary storage, both dedup indices and the
content store untouched. -/
theorem submit_dedup_idempotent (ext : Externals) (w : World)
    (url userId1 userId2 now1 fid1 now2 fid2 : String) (p : Page)
    (hp : effectivePage ext now1 url w = .ok p)
    (hsafe : p.isSafe = true)
    (hfresh : lookupKV w.urlIndex p.url = none)
    (hfid : fid1 ≠ "") :
    ∃ w1 w2,
      submit ext now1 fid1 userId1 url w = .ok ((some fid1, SubmissionStatus.PUBLISHED), w1) ∧
      submit ext now2 fid2 userId2 url w1 = .ok ((some fid1, SubmissionStatus.RESUBMITTED), w2) ∧
      w2.storage = w1.storage ∧ w2.urlIndex = w1.urlIndex ∧
      w2.pkgIndex = w1.pkgIndex ∧ w2.content = w1.content := by
  obtain ⟨hst, hurl, hpkg, hcon⟩ := submitMid_components w _ url p rfl
  set wmid := (if (lookupKV w.page url).isSome then w
      else { w with page := putKV w.page p.url p }) with hmid
  obtain ⟨w1, hpub, hw1idx, hw1page⟩ :=
    submitWithPage_published ext now1 fid1 userId1 p wmid
      (by rw [hurl]; exact hfresh) hsafe hfid
  have hcall1 : submit ext now1 fid1 userId1 url w =
      .ok ((some fid1, SubmissionStatus.PUBLISHED), w1) := by
    rw [submit_eq_withPage ext now1 fid1 userId1 url w p hp, ← hmid]
    exact hpub
  have hstable : ∃ p2 : Page, effectivePage ext now2 url w1 = .ok p2 ∧ p2.url = p.url := by
    rcases hc : lookupKV w.page url with _ | q
    · have hmiss : ¬(lookupKV w.page url).isSome := by
        rw [hc]
        simp
      have hmid2 : wmid = { w with page := putKV w.page p.url p } := by
        rw [hmid, if_neg hmiss]
      rcases hscrape : ext.scrapeHTML url with e | base
      · exfalso
        unfold effectivePage at hp
        rw [hc, hscrape] at hp
        cases hp
      · have hpval := effectivePage_miss ext now1 url w base hc hscrape
        rw [hp] at hpval
        have hpv : p = { mergePage base (ext.getPageDetails base.url) with
            isSafe := if ext.hasGoogleApiKey then ext.checkSafeBrowsingAPI base.url else true
            createdAt := some now1
            updatedAt := some now1 } := by
          cases hpval
          rfl
        by_cases hpu : p.url = url
        · refine ⟨p, effectivePage_hit ext now2 url w1 p ?_, rfl⟩
          rw [hw1page, hmid2]
          show lookupKV (putKV w.page p.url p) url = some p
          rw [hpu]
          exact lookupKV_putKV_self _ _ _
        · have hl1 : lookupKV w1.page url = none := by
            rw [hw1page, hmid2]
            show lookupKV (putKV w.page p.url p) url = none
            rw [lookupKV_putKV_ne w.page p.url url p hpu]
            exact hc
          refine ⟨_, effectivePage_miss ext now2 url w1 base hl1 hscrape, ?_⟩
          rw [hpv]
    · have hhit : (lookupKV w.page url).isSome := by
        rw [hc]
        rfl
      have hmid2 : wmid = w := by
        rw [hmid, if_pos hhit]
      have hpq : q = p := by
        have := effectivePage_hit ext now1 url w q hc
        rw [hp] at this
        cases this
        rfl
      refine ⟨p, effectivePage_hit ext now2 url w1 p ?_, rfl⟩
      rw [hw1page, hmid2, ← hpq]
      exact hc
  obtain ⟨p2, hp2, hp2url⟩ := hstable
  obtain ⟨hst2, hurl2, hpkg2, hcon2⟩ := submitMid_components w1 _ url p2 rfl
  have hcall2 : submit ext now2 fid2 userId2 url w1 =
      .ok ((some fid1, SubmissionStatus.RESUBMITTED),
        if (lookupKV w1.page url).isSome then w1
        else { w1 with page := putKV w1.page p2.url p2 }) := by
    rw [submit_eq_withPage ext now2 fid2 userId2 url w1 p2 hp2]
    refine submitWithPage_resubmitted ext now2 fid2 userId2 p2 _ fid1 ?_ hfid
    rw [hurl2, hp2url]
    exact hw1idx
  exact ⟨w1, _, hcall1, hcall2, hst2, hurl2, hpkg2, hcon2⟩

/-- C1 witness: the dedup theorem instantiated on an empty world and a
concrete URL whose scrape succeeds and is safe. -/
theorem submit_dedup_idempotent_witness :
    ∃ w1 w2,
      submit extFix "t1" "Fresh1" "alice" "u9" emptyWorld =
        .ok ((some "Fresh1", SubmissionStatus.PUBLISHED), w1) ∧
      submit extFix "t2" "Fresh2" "bob" "u9" w1 =
        .ok ((some "Fresh1", SubmissionStatus.RESUBMITTED), w2) ∧
      w2.storage = w1.storage ∧ w2.urlIndex = w1.urlIndex ∧
      w2.pkgIndex = w1.pkgIndex ∧ w2.content = w1.content := by
  exact submit_dedup_idempotent extFix emptyWorld "u9" "alice" "bob" "t1" "Fresh1" "t2" "Fresh2"
    { pageFix with url := "u9", isSafe := true, createdAt := some "t1", updatedAt := some "t1" }
    rfl rfl rfl (by decide)

/-- C6 counterexample: on a stored resource with page data present,
`getDetails` returns only the eight summary fields, so the JSON a caller
receives differs from the serialization of the full `Resource` (summary
extended with the scraped/derived fields) that the claim promises. -/
theorem getDetails_full_resource_counterexample :
    (getDetails extFix (some "R1") worldFix).1 = some summaryFix ∧
    getDetailsSpec extFix (some "R1") worldFix =
      some (resourceOf extFix [] summaryFix pageFix) ∧
    (getDetails extFix (some "R1") worldFix).1.map summaryJson ≠
      (getDetailsSpec extFix (some "R1") worldFix).map resourceJson := by
  refine ⟨rfl, rfl, ?_⟩
  decide

/-- C6 corrected: `getDetails(resourceId)` returns `null` when no record is
stored for that id; otherwise it returns the stored `ResourceSummary` only
(the scraped/derived fields live solely in the content store) and rebuilds
the denormalized metadata sidecar in the content store before returning. -/
theorem getDetails_returns_summary :
    (∀ (ext : Externals) (w : World), getDetails ext none w = (none, w)) ∧
    (∀ (ext : Externals) (w : World) (id : String),
       lookupKV w.storage id = none → getDetails ext (some id) w = (none, w)) ∧
    (∀ (ext : Externals) (w : World) (id : String) (s : ResourceSummary) (pg : Page),
       lookupKV w.storage id = some (.summary s) → s.id = id →
       lookupKV w.page s.url = some pg →
       getDetails ext (some id) w =
         (some s, { w with content := putKV w.content (String.append "resources/" s.id) (cacheEntry ext (w.pkgIndex.map Prod.fst) s pg) })) := by
  refine ⟨?_, ?_, ?_⟩
  · intro ext w
    rfl
  · intro ext w id h
    simp [getDetails, getResource, h]
  · intro ext w id s pg h hid hpg
    have hres : getResource w id = some s := getResource_of_stored w id s h
    have hcache : updateResourceCache ext s none w = .ok { w with
        content := putKV w.content (String.append "resources/" s.id) (cacheEntry ext (w.pkgIndex.map Prod.fst) s pg) } := by
      unfold updateResourceCache
      rw [show (none : Option Page).orElse (fun _ => lookupKV w.page s.url) = some pg
        from by simpa using hpg]
      rfl
    simp [getDetails, hres, hcache]

/-- C6 witness: the corrected statement evaluated on the concrete stored
resource (hit with sidecar rebuild) and on a missing id (null). -/
theorem getDetails_returns_summary_witness :
    getDetails extFix (some "R1") worldFix =
      (some summaryFix, { worldFix with content := putKV worldFix.content (String.append "resources/" "R1") (cacheEntry extFix [] summaryFix pageFix) }) ∧
    getDetails extFix (some "missing") worldFix = (none, worldFix) := by
  constructor
  · exact getDetails_returns_summary.2.2 extFix worldFix "R1" summaryFix pageFix rfl rfl rfl
  · exact getDetails_returns_summary.2.1 extFix worldFix "missing" rfl

/-- C7: `refresh(userId, resourceId)` returns `false` when no summary is
stored; otherwise it returns `true`, preserves the summary's original
`createdAt`, and, when re-scraping yields a changed canonical URL, updates
the summary's `url`/`updatedAt`/`updatedBy` and caches the refreshed page
under both the new and the old URL; in every successful case it persists
the refreshed `Resource` and its metadata sidecar in the content store. -/
theorem refresh_behavior :
    (∀ (ext : Externals) (now userId rid : String) (w : World),
       lookupKV w.storage rid = none → refresh ext now userId rid w = .ok (false, w)) ∧
    (∀ (ext : Externals) (now userId rid : String) (w : World) (s : ResourceSummary)
       (base : Page),
       lookupKV w.storage rid = some (.summary s) → s.id = rid →
       ext.scrapeHTML s.url = .ok base →
       ∃ w2 s2,
         refresh ext now userId rid w = .ok (true, w2) ∧
         lookupKV w2.storage rid = some (.summary s2) ∧
         s2.createdAt = s.createdAt ∧
         (s.url = (refreshPageOf ext now s base w).url → s2 = s) ∧
         (s.url ≠ (refreshPageOf ext now s base w).url →
            s2 = { s with url := (refreshPageOf ext now s base w).url, updatedAt := now, updatedBy := userId } ∧
            lookupKV w2.page (refreshPageOf ext now s base w).url = some (refreshPageOf ext now s base w) ∧
            lookupKV w2.page s.url = some (refreshPageOf ext now s base w)) ∧
         lookupKV w2.content (String.append "resources/" rid) =
           some (cacheEntry ext (w.pkgIndex.map Prod.fst) s2 (refreshPageOf ext now s base w))) := by
  constructor
  · intro ext now userId rid w h
    simp [refresh, getResource, h]
  · intro ext now userId rid w s base h hid hscrape
    subst hid
    have hres : getResource w s.id = some s := getResource_of_stored w s.id s h
    by_cases hcase : s.url = (refreshPageOf ext now s base w).url
    · have hrun : refresh ext now userId s.id w = .ok (true,
          { storage := putKV w.storage s.id (.summary s)
            urlIndex := w.urlIndex
            pkgIndex := w.pkgIndex
            page := putKV w.page (refreshPageOf ext now s base w).url (refreshPageOf ext now s base w)
            content := putKV w.content (String.append "resources/" s.id) (cacheEntry ext (w.pkgIndex.map Prod.fst) s (refreshPageOf ext now s base w)) }) := by
        simp only [refresh, hres, hscrape]
        rw [if_pos hcase]
        rw [updateResource_some_ok]
        rfl
      refine ⟨_, s, hrun, ?_, rfl, fun _ => rfl, fun hne => absurd hcase hne, ?_⟩
      · exact lookupKV_putKV_self _ _ _
      · exact lookupKV_putKV_self _ _ _
    · have hrun : refresh ext now userId s.id w = .ok (true,
          { storage := putKV w.storage s.id (.summary { s with url := (refreshPageOf ext now s base w).url, updatedAt := now, updatedBy := userId })
            urlIndex := w.urlIndex
            pkgIndex := w.pkgIndex
            page := putKV (putKV w.page (refreshPageOf ext now s base w).url (refreshPageOf ext now s base w)) s.url (refreshPageOf ext now s base w)
            content := putKV w.content (String.append "resources/" s.id) (cacheEntry ext (w.pkgIndex.map Prod.fst) { s with url := (refreshPageOf ext now s base w).url, updatedAt := now, updatedBy := userId } (refreshPageOf ext now s base w)) }) := by
        simp only [refresh, hres, hscrape]
        rw [if_neg hcase]
        rw [updateResource_some_ok]
        rfl
      refine ⟨_, { s with url := (refreshPageOf ext now s base w).url, updatedAt := now, updatedBy := userId },
        hrun, ?_, rfl, fun hx => absurd hx hcase, fun _ => ⟨rfl, ?_, ?_⟩, ?_⟩
      · exact lookupKV_putKV_self _ _ _
      · rw [lookupKV_putKV_ne
          (putKV w.page (refreshPageOf ext now s base w).url (refreshPageOf ext now s base w))
          s.url (refreshPageOf ext now s base w).url (refreshPageOf ext now s base w) hcase]
        exact lookupKV_putKV_self _ _ _
      · exact lookupKV_putKV_self _ _ _
      · exact lookupKV_putKV_self _ _ _

/-- C7 witness: `refresh` on the concrete stored resource (unchanged
canonical URL) and on a missing id. -/
theorem refresh_behavior_witness :
    refresh extFix "t5" "carol" "missing" worldFix = .ok (false, worldFix) ∧
    ∃ w2 s2,
      refresh extFix "t5" "carol" "R1" worldFix = .ok (true, w2) ∧
      lookupKV w2.storage "R1" = some (.summary s2) ∧
      s2.createdAt = summaryFix.createdAt := by
  constructor
  · exact refresh_behavior.1 extFix "t5" "carol" "missing" worldFix rfl
  · obtain ⟨w2, s2, hrun, hlook, hcreated, hrest⟩ :=
      refresh_behavior.2 extFix "t5" "carol" "R1" worldFix summaryFix
        { pageFix with url := "https://remix.run/docs" } rfl rfl rfl
    exact ⟨w2, s2, hrun, hlook, hcreated⟩

/-- C9: the RPC boundary of the `ResourcesStore` catches every failure —
including the uninitialized-store case and a thrown upstream error such as
a failing scrape — logs it and answers with the constant generic
server-error response, whose body carries no detail of the error; every
request, whatever its route or outcome, receives a well-formed response
with one of the statuses 200, 201, 404 or 500 (the handler never throws to
its caller). -/
theorem fetch_error_boundary :
    (∀ (ext : Externals) (now fid : String) (req : RpcRequest) (h : ResourcesStoreHost),
       h.store = none → fetchRpc ext now fid req h = (genericError, h)) ∧
    (∀ (ext : Externals) (now fid url userId : String) (w : World) (e : String),
       lookupKV w.page url = none → ext.scrapeHTML url = .error e →
       fetchRpc ext now fid (.submitReq url userId) ⟨some w⟩ = (genericError, ⟨some w⟩)) ∧
    (∀ (ext : Externals) (now fid : String) (req : RpcRequest) (h : ResourcesStoreHost),
       (fetchRpc ext now fid req h).1.status = 200 ∨
       (fetchRpc ext now fid req h).1.status = 201 ∨
       (fetchRpc ext now fid req h).1.status = 404 ∨
       (fetchRpc ext now fid req h).1.status = 500) := by
  refine ⟨?_, ?_, ?_⟩
  · intro ext now fid req h hnone
    unfold fetchRpc
    rw [hnone]
  · intro ext now fid url userId w e hpage hscrape
    have hsub : submit ext now fid userId url w = .error e := by
      unfold submit effectivePage
      rw [hpage, hscrape]
    unfold fetchRpc
    simp [hsub]
  · intro ext now fid req h
    rcases hstore : h.store with _ | w
    · unfold fetchRpc
      rw [hstore]
      simp [genericError]
    · unfold fetchRpc
      rw [hstore]
      cases req with
      | submitReq url userId =>
        rcases hs : submit ext now fid userId url w with e | r
        · simp [hs, genericError]
        · rcases r with ⟨r1, w1⟩
          simp [hs]
      | refreshReq userId resourceId =>
        rcases hs : refresh ext now userId resourceId w with e | r
        · simp [hs, genericError]
        · rcases r with ⟨b, w1⟩
          cases b <;> simp [hs, okResp, notFoundResp]
      | detailsReq resourceId =>
        rcases hd : (getDetails ext resourceId w).1 with _ | s <;>
          simp [hd, notFoundResp]
      | viewReq resourceId =>
        rcases hv : (view ext resourceId w).1 with _ | _ <;>
          simp [hv, okResp, notFoundResp]
      | bookmarkReq userId resourceId =>
        rcases hv : (bookmark ext userId resourceId w).1 with _ | _ <;>
          simp [hv, okResp, notFoundResp]
      | unbookmarkReq userId resourceId =>
        rcases hv : (unbookmark ext userId resourceId w).1 with _ | _ <;>
          simp [hv, okResp, notFoundResp]
      | backupReq => simp
      | restoreReq data => simp [okResp]
      | unknownReq => simp [notFoundResp]

/-- C9 witness: the boundary theorem instantiated on an uninitialized
store, on a scraper that throws, and on a concrete routed request. -/
theorem fetch_error_boundary_witness :
    fetchRpc extFix "t" "F" RpcRequest.backupReq ⟨none⟩ = (genericError, ⟨none⟩) ∧
    fetchRpc extFailFix "t" "F" (.submitReq "u7" "alice") ⟨some emptyWorld⟩ =
      (genericError, ⟨some emptyWorld⟩) ∧
    ((fetchRpc extFix "t" "F" RpcRequest.backupReq ⟨some emptyWorld⟩).1.status = 200 ∨
     (fetchRpc extFix "t" "F" RpcRequest.backupReq ⟨some emptyWorld⟩).1.status = 201 ∨
     (fetchRpc extFix "t" "F" RpcRequest.backupReq ⟨some emptyWorld⟩).1.status = 404 ∨
     (fetchRpc extFix "t" "F" RpcRequest.backupReq ⟨some emptyWorld⟩).1.status = 500) := by
  refine ⟨?_, ?_, ?_⟩
  · exact fetch_error_boundary.1 extFix "t" "F" RpcRequest.backupReq ⟨none⟩ rfl
  · exact fetch_error_boundary.2.1 extFailFix "t" "F" "u7" "alice" emptyWorld
      "network down" rfl rfl
  · exact fetch_error_boundary.2.2 extFix "t" "F" RpcRequest.backupReq ⟨some emptyWorld⟩

end RemixGuide
